import Mathlib

/-!
Verification of the transaction-generation engine of `src/generate.py`
(class `TransactionDataGenerator` plus the rewards rollup in `save_csvs`).

Modelling conventions:
* Python floats are modelled exactly over `ℚ` (all arithmetic in the engine is
  elementary field arithmetic, comparisons and rounding).
* Every random draw (`random.choice`, `random.random`, `random.uniform`,
  `random.randint`, the numpy log-normal draws and the faker timestamp /
  latitude / longitude draws) is made an explicit input: the generation loop
  receives a stream `ℕ → AttemptInput` of per-attempt draws, so theorems
  quantify over all possible randomness.
* `random.choice l` is modelled by `choice l k = l[k % l.length]?`, which is
  `none` exactly when `l = []` — the case where CPython raises `IndexError`.
  Uncaught Python exceptions are modelled by an `Option`-valued result
  (`none` = the run dies with an exception).
* `round(x, d)` (Python) is modelled by `pyRound x d`; the half-to-even tie
  rule of CPython is abstracted to Mathlib `round` (ties are immaterial to
  every property proved below).
* Python `datetime` values are modelled by their epoch seconds (a rational,
  so `timedelta.total_seconds()` is exact subtraction) together with the
  derived `hour` and `weekday` attributes that the engine reads.
-/

/-- Epoch-seconds view of a Python `datetime`, with the `.hour` and
`.weekday()` attributes the engine reads. -/
structure Time where
  secs : ℚ
  hour : ℕ
  weekday : ℕ
deriving DecidableEq

/-- The fields of a user record that the engine reads
(`generate_users`, lines 62-81; decorative faker identity fields are never
read by the transaction engine and are omitted). -/
structure User where
  user_id : String
  is_active : Bool
  risk_score : ℚ
deriving DecidableEq

/-- The fields of a card record that the engine reads
(`generate_cards`, lines 83-100). -/
structure Card where
  card_id : String
  user_id : String
  card_number : String
  is_active : Bool
deriving DecidableEq

/-- The fields of a merchant record that the engine reads
(`generate_merchants`, lines 102-119). -/
structure Merchant where
  merchant_id : String
  merchant_name : String
  merchant_category : String
  city : String
  is_active : Bool
deriving DecidableEq

/-- One row of `self.merchant_categories` (lines 32-48). -/
structure CategoryInfo where
  fraud_rate : ℚ
  avg_amount : ℚ
deriving DecidableEq

/-- `self.merchant_categories` (lines 32-48). -/
def merchant_categories : List (String × CategoryInfo) :=
  [("grocery", ⟨0.01, 85.50⟩),
   ("gas_station", ⟨0.02, 45.20⟩),
   ("restaurant", ⟨0.015, 32.80⟩),
   ("retail", ⟨0.025, 125.40⟩),
   ("electronics", ⟨0.035, 450.75⟩),
   ("online_shopping", ⟨0.04, 89.30⟩),
   ("travel", ⟨0.03, 850.20⟩),
   ("entertainment", ⟨0.02, 65.80⟩),
   ("healthcare", ⟨0.01, 180.50⟩),
   ("utilities", ⟨0.005, 120.30⟩),
   ("luxury_goods", ⟨0.08, 2500.00⟩),
   ("cryptocurrency", ⟨0.12, 500.00⟩),
   ("money_transfer", ⟨0.15, 300.00⟩),
   ("adult_entertainment", ⟨0.06, 75.00⟩),
   ("gambling", ⟨0.10, 200.00⟩)]

/-- `self.high_risk_locations` (lines 50-53). -/
def high_risk_locations : List String :=
  ["Miami, FL", "Las Vegas, NV", "Atlantic City, NJ",
   "Los Angeles, CA", "New York, NY", "Chicago, IL"]

/-- `self.normal_locations` (lines 54-58). -/
def normal_locations : List String :=
  ["Austin, TX", "Denver, CO", "Seattle, WA", "Portland, OR",
   "Boston, MA", "Philadelphia, PA", "Phoenix, AZ", "San Diego, CA",
   "Dallas, TX", "Houston, TX", "Atlanta, GA", "Nashville, TN"]

/-- `self.device_types` (line 59). -/
def device_types : List String := ["mobile", "desktop", "tablet", "pos_terminal"]

/-- The source-system enumeration (line 225). -/
def source_systems : List String := ["mobile_app", "web_portal", "pos_terminal", "api"]

/-- The hardcoded high-risk merchant-city list (line 178). -/
def high_risk_cities : List String := ["Miami", "Las Vegas", "Atlantic City"]

/-- `random.choice l`: an arbitrary draw is an index `k`; the drawn element is
`l[k % l.length]?`, which is `none` exactly when `l = []` (CPython raises
`IndexError` on an empty sequence). -/
def choice {α : Type} (l : List α) (k : ℕ) : Option α :=
  l[k % l.length]?

/-- Python `round(x, d)` on our exact rationals (tie rule abstracted). -/
def pyRound (x : ℚ) (d : ℕ) : ℚ :=
  (round (x * 10 ^ d) : ℚ) / 10 ^ d

/-- `f-string` zero padding `{k:07d}` (line 210). -/
def pad7 (k : ℕ) : String :=
  let s := toString k
  String.mk (List.replicate (7 - s.length) '0') ++ s

/-- `_calculate_fraud_probability` (lines 121-144), with the
`random.uniform(-0.1, 0.1)` draw of line 140 passed explicitly as `noise`.
The dictionary access `self.merchant_categories[merchant_category]`
(line 137) raises `KeyError` on an unknown category: result `none`. -/
def calculate_fraud_probability (amount : ℚ) (hour weekday : ℕ) (location : String)
    (merchant_category : String) (user_risk_score : ℚ) (is_fraud : Bool)
    (noise : ℚ) : Option ℚ :=
  match merchant_categories.lookup merchant_category with
  | none => none
  | some category_info =>
    let p0 : ℚ := 0
    let p1 := if amount > 10000 then p0 + 0.3
              else if amount > 5000 then p0 + 0.2
              else if amount > 1000 then p0 + 0.1
              else p0
    let p2 := if 22 ≤ hour ∨ hour < 6 then p1 + 0.15 else p1
    let p3 := if 5 ≤ weekday then p2 + 0.1 else p2
    let p4 := if high_risk_locations.contains location then p3 + 0.2 else p3
    let p5 := p4 + category_info.fraud_rate * 2
    let p6 := p5 + user_risk_score * 0.3
    let p7 := p6 + noise
    let p8 := max 0 (min 1 p7)
    some (if is_fraud then max p8 0.5 else p8)

/-- A model of the CPython global Mersenne-Twister state as consumed by the
scorer: an abstract stream of `random.random()` outputs and a position. -/
structure RandState where
  stream : ℕ → ℚ
  pos : ℕ

/-- `random.uniform(lo, hi)` = `lo + (hi - lo) * random.random()`, consuming
one stream element and advancing the hidden global state. -/
def uniformDraw (lo hi : ℚ) (st : RandState) : ℚ × RandState :=
  (lo + (hi - lo) * st.stream st.pos, ⟨st.stream, st.pos + 1⟩)

/-- `_calculate_fraud_probability` exactly as written in the source: the
line-140 call `random.uniform(-0.1, 0.1)` reads and advances the hidden
module-global RNG state, which is therefore threaded through the call. -/
def calculate_fraud_probability_rng (st : RandState) (amount : ℚ)
    (hour weekday : ℕ) (location : String) (merchant_category : String)
    (user_risk_score : ℚ) (is_fraud : Bool) : Option ℚ × RandState :=
  let d := uniformDraw (-0.1) 0.1 st
  (calculate_fraud_probability amount hour weekday location merchant_category
    user_risk_score is_fraud d.1, d.2)

/-- The effective per-transaction fraud rate of lines 171-181:
category base rate × (1 + user risk score), × 1.5 at odd hours, × 1.2 on
weekends, × 1.3 for a high-risk merchant city. -/
def effective_fraud_rate (category_info : CategoryInfo) (risk_score : ℚ)
    (hour weekday : ℕ) (city : String) : ℚ :=
  let r0 := category_info.fraud_rate * (1 + risk_score)
  let r1 := if 22 ≤ hour ∨ hour < 6 then r0 * 1.5 else r0
  let r2 := if 5 ≤ weekday then r1 * 1.2 else r1
  if high_risk_cities.contains city then r2 * 1.3 else r2

/-- All random draws consumed by one iteration of the generation loop
(lines 160-233), gathered as explicit inputs. -/
structure AttemptInput where
  userIdx : ℕ      -- random.choice(users), line 162
  cardIdx : ℕ      -- random.choice(user_cards), line 166
  merchantIdx : ℕ  -- random.choice(merchants), line 167
  time : Time      -- fake.date_time_between, line 169
  fraudDraw : ℚ    -- random.random(), line 181
  amountRaw : ℚ    -- np.random.lognormal draw, line 184 / 187
  locCoin : ℚ      -- random.random(), line 190
  locIdx : ℕ       -- random.choice of the location list, line 191 / 193
  devTypeIdx : ℕ   -- random.choice(self.device_types), line 195
  devIdNum : ℕ     -- random.randint(1000, 9999), line 196
  srcIdx : ℕ       -- random.choice of source systems, line 225
  latRaw : ℚ       -- fake.latitude(), line 221
  lonRaw : ℚ       -- fake.longitude(), line 222
  noise : ℚ        -- random.uniform(-0.1, 0.1) inside the scorer, line 140

/-- A generated transaction record (lines 209-230), with the two `datetime`
fields kept structured (`isoformat` serialisation is persistence-level). -/
structure Txn where
  transaction_id : String
  card_id : String
  card_number : String
  user_id : String
  merchant_id : String
  merchant_name : String
  merchant_category : String
  amount : ℚ
  currency : String
  transaction_time : Time
  location : String
  latitude : ℚ
  longitude : ℚ
  device_id : String
  device_type : String
  source_system : String
  seconds_since_prev_tx : Option ℚ
  is_fraud : Bool
  fraud_probability : ℚ
  created_at : Time
deriving DecidableEq

/-- Result of one loop iteration: uncaught exception, `continue` (line 165),
or an accepted transaction. -/
inductive StepResult where
  | err : StepResult
  | skip : StepResult
  | emit : Txn → StepResult
deriving DecidableEq

/-- The body of one iteration of the `while` loop, lines 162-233.
`i` is the accepted-transaction count (used for `transaction_id`), `last` the
`last_tx_time_by_card` map (assoc list, newest binding first, so
`List.lookup` returns the current binding, matching dict update/get). -/
def attemptStep (users : List User) (cards : List Card) (merchants : List Merchant)
    (inp : AttemptInput) (i : ℕ) (last : List (String × Time)) : StepResult :=
  match choice users inp.userIdx with
  | none => .err
  | some user =>
    let user_cards := cards.filter fun c => c.user_id == user.user_id && c.is_active
    match choice user_cards inp.cardIdx with
    | none => .skip
    | some card =>
      match choice merchants inp.merchantIdx with
      | none => .err
      | some merchant =>
        match merchant_categories.lookup merchant.merchant_category with
        | none => .err
        | some category_info =>
          let t := inp.time
          let user_fraud_rate :=
            effective_fraud_rate category_info user.risk_score t.hour t.weekday merchant.city
          let is_fraud : Bool := inp.fraudDraw < user_fraud_rate
          let amount := if is_fraud then min inp.amountRaw 50000 else min inp.amountRaw 5000
          let locPool := if is_fraud ∧ inp.locCoin < 0.3 then high_risk_locations
                         else normal_locations
          match choice locPool inp.locIdx, choice device_types inp.devTypeIdx,
                choice source_systems inp.srcIdx with
          | some location, some device_type, some source_system =>
            let seconds_since := (last.lookup card.card_id).map fun p => t.secs - p.secs
            match calculate_fraud_probability amount t.hour t.weekday location
                    merchant.merchant_category user.risk_score is_fraud inp.noise with
            | none => .err
            | some p =>
              .emit
                { transaction_id := "txn_" ++ pad7 (i + 1)
                  card_id := card.card_id
                  card_number := card.card_number
                  user_id := user.user_id
                  merchant_id := merchant.merchant_id
                  merchant_name := merchant.merchant_name
                  merchant_category := merchant.merchant_category
                  amount := pyRound amount 2
                  currency := "USD"
                  transaction_time := t
                  location := location
                  latitude := pyRound inp.latRaw 6
                  longitude := pyRound inp.lonRaw 6
                  device_id := "device_" ++ toString (1000 + inp.devIdNum % 9000)
                  device_type := device_type
                  source_system := source_system
                  seconds_since_prev_tx := seconds_since
                  is_fraud := is_fraud
                  fraud_probability := pyRound p 4
                  created_at := t }
          | _, _, _ => .err

/-- The `while i < n_transactions and attempts < n_transactions * 3` loop of
lines 158-235, as a fuel-indexed recursion. The loop appends accepted
transactions in order; here the output list is built head-first, which yields
the same list. The explicit `attempts < n * 3` guard mirrors the `while`
condition; the fuel argument is only a recursion bound (the loop itself stops
at the attempt cap — see the fuel-independence theorem for claim C3). -/
def generate_transactions_loop (users : List User) (cards : List Card)
    (merchants : List Merchant) (inputs : ℕ → AttemptInput) (n : ℕ) :
    ℕ → ℕ → ℕ → List (String × Time) → Option (List Txn)
  | 0, _, _, _ => some []
  | fuel + 1, i, attempts, last =>
    if i < n ∧ attempts < n * 3 then
      match attemptStep users cards merchants (inputs attempts) i last with
      | .err => none
      | .skip => generate_transactions_loop users cards merchants inputs n fuel i (attempts + 1) last
      | .emit t =>
        (generate_transactions_loop users cards merchants inputs n fuel (i + 1) (attempts + 1)
          ((t.card_id, t.transaction_time) :: last)).map (t :: ·)
    else some []

/-- `generate_transactions` (lines 146-235): run the loop from the empty
per-card map; `n * 3` fuel always suffices since `attempts` increases every
iteration. `none` models a run killed by an uncaught exception. -/
def generate_transactions (users : List User) (cards : List Card)
    (merchants : List Merchant) (inputs : ℕ → AttemptInput) (n : ℕ) :
    Option (List Txn) :=
  generate_transactions_loop users cards merchants inputs n (n * 3) 0 0 []

/-- `['pending','reviewed','resolved']` (line 249). -/
def alert_statuses : List String := ["pending", "reviewed", "resolved"]

/-- A fraud-alert record (lines 241-251). -/
structure Alert where
  alert_id : String
  transaction_id : String
  user_id : String
  fraud_probability : ℚ
  risk_level : String
  alert_type : String
  description : String
  status : String
  created_at : Time
deriving DecidableEq

/-- `generate_fraud_alerts` (lines 237-252). `statusIdx` supplies the
`random.choice` draws of line 249, indexed by the number of alerts emitted so
far; `alert_statuses` is nonempty so the `getD` default is never used. -/
def generate_fraud_alerts (statusIdx : ℕ → ℕ) : ℕ → List Txn → List Alert
  | _, [] => []
  | k, tx :: rest =>
    if tx.fraud_probability > 0.5 then
      { alert_id := "alert_" ++ tx.transaction_id
        transaction_id := tx.transaction_id
        user_id := tx.user_id
        fraud_probability := tx.fraud_probability
        risk_level := if tx.fraud_probability > 0.8 then "high" else "medium"
        alert_type := "automatic_fraud_detection"
        description := "Transaction flagged as "
          ++ (if tx.fraud_probability > 0.8 then "high" else "medium") ++ " risk fraud"
        status := (choice alert_statuses (statusIdx k)).getD ""
        created_at := tx.transaction_time } :: generate_fraud_alerts statusIdx (k + 1) rest
    else generate_fraud_alerts statusIdx k rest

/-- One row of `points.csv` (lines 272-278). -/
structure PointsRecord where
  user_id : String
  total_spent : ℚ
  points : ℤ
deriving DecidableEq

/-- numpy/pandas `.astype(int)`: truncation toward zero. -/
def astypeInt (q : ℚ) : ℤ :=
  if 0 ≤ q then ⌊q⌋ else -⌊-q⌋

/-- The groupby-sum of line 273 for one user. -/
def total_spent_of (txns : List Txn) (uid : String) : ℚ :=
  ((txns.filter fun t => t.user_id == uid).map (·.amount)).sum

/-- The `how='left'` merge of line 276 followed by `.fillna(0)` of line 277:
the user's `risk_score`, or `0` when the user id is absent from `users`. -/
def risk_of (users : List User) (uid : String) : ℚ :=
  ((users.find? fun u => u.user_id == uid).map (·.risk_score)).getD 0

/-- The rewards rollup of lines 272-278: group transactions by `user_id`
(row order of the pandas groupby — sorted keys — is abstracted to
deduplicated key order; every property below is order-independent), sum
`amount`, then `points = astypeInt(astypeInt(total/10) + risk*10)`. -/
def points_records (txns : List Txn) (users : List User) : List PointsRecord :=
  ((txns.map (·.user_id)).dedup).map fun uid =>
    let total := total_spent_of txns uid
    let base := astypeInt (total / 10)
    { user_id := uid
      total_spent := total
      points := astypeInt ((base : ℚ) + risk_of users uid * 10) }

/-- The per-card gap discipline of lines 198-203, relative to the previous
timestamp (in epoch seconds) recorded for the card — `none` when the card has
not been seen: the head transaction's `seconds_since_prev_tx` is `none` iff
no previous timestamp exists, otherwise the exact difference, and the
remainder is checked against the head's own timestamp. -/
def gapsOk : Option ℚ → List Txn → Prop
  | _, [] => True
  | prev, t :: ts =>
    t.seconds_since_prev_tx = prev.map (fun p => t.transaction_time.secs - p) ∧
      gapsOk (some t.transaction_time.secs) ts

/-- A successful `random.choice` draws a member of the list. -/
lemma choice_mem {α : Type} {l : List α} {k : ℕ} {a : α} (h : choice l k = some a) :
    a ∈ l :=
  List.getElem?_mem h

/-- `random.choice` succeeds exactly on nonempty lists. -/
lemma choice_isSome {α : Type} {l : List α} (h : l ≠ []) (k : ℕ) :
    (choice l k).isSome := by
  have hlen : 0 < l.length := List.length_pos.mpr h
  have hk : k % l.length < l.length := Nat.mod_lt _ hlen
  simp [choice, List.getElem?_eq_getElem hk]

/-- A successful association-list lookup exhibits a member pair. -/
lemma lookup_mem {α β : Type} [BEq α] [LawfulBEq α] {l : List (α × β)} {a : α} {b : β}
    (h : l.lookup a = some b) : (a, b) ∈ l := by
  induction l with
  | nil => simp [List.lookup] at h
  | cons p rest ih =>
    obtain ⟨k, v⟩ := p
    simp only [List.lookup] at h
    by_cases hk : (a == k) = true
    · simp only [hk] at h
      obtain rfl : v = b := by simpa using h
      obtain rfl : a = k := beq_iff_eq.mp hk
      exact List.mem_cons_self _ _
    · simp only [Bool.not_eq_true] at hk
      simp only [hk] at h
      exact List.mem_cons_of_mem _ (ih h)

/-- Master description of an accepted iteration: everything the claims need
about the transaction assembled in lines 162-233. -/
lemma attemptStep_emit {users : List User} {cards : List Card}
    {merchants : List Merchant} {inp : AttemptInput} {i : ℕ}
    {last : List (String × Time)} {t : Txn}
    (h : attemptStep users cards merchants inp i last = .emit t) :
    ∃ user ∈ users, ∃ card ∈ cards, ∃ merchant ∈ merchants, ∃ category_info,
      merchant_categories.lookup merchant.merchant_category = some category_info ∧
      card.is_active = true ∧ card.user_id = user.user_id ∧
      t.card_id = card.card_id ∧ t.user_id = user.user_id ∧
      t.merchant_id = merchant.merchant_id ∧
      t.merchant_name = merchant.merchant_name ∧
      t.merchant_category = merchant.merchant_category ∧
      t.transaction_time = inp.time ∧
      t.seconds_since_prev_tx
        = (last.lookup card.card_id).map (fun p => inp.time.secs - p.secs) ∧
      ∃ p, calculate_fraud_probability
              (if t.is_fraud then min inp.amountRaw 50000 else min inp.amountRaw 5000)
              inp.time.hour inp.time.weekday t.location merchant.merchant_category
              user.risk_score t.is_fraud inp.noise = some p ∧
            t.fraud_probability = pyRound p 4 := by
  unfold attemptStep at h
  cases hu : choice users inp.userIdx with
  | none => rw [hu] at h; exact absurd h (by simp)
  | some user =>
  rw [hu] at h
  simp only at h
  cases hc : choice (cards.filter fun c => c.user_id == user.user_id && c.is_active)
      inp.cardIdx with
  | none => rw [hc] at h; exact absurd h (by simp)
  | some card =>
  rw [hc] at h
  simp only at h
  cases hm : choice merchants inp.merchantIdx with
  | none => rw [hm] at h; exact absurd h (by simp)
  | some merchant =>
  rw [hm] at h
  simp only at h
  cases hl : merchant_categories.lookup merchant.merchant_category with
  | none => rw [hl] at h; exact absurd h (by simp)
  | some category_info =>
  rw [hl] at h
  simp only at h
  split at h
  next location device_type source_system hloc hdev hsrc =>
    split at h
    next => exact absurd h (by simp)
    next p hp =>
      obtain rfl : _ = t := StepResult.emit.inj h
      refine ⟨user, choice_mem hu, card, ?_, merchant, choice_mem hm, category_info,
        hl, ?_, ?_, rfl, rfl, rfl, rfl, rfl, rfl, ?_, p, ?_, rfl⟩
      · exact (List.mem_filter.mp (choice_mem hc)).1
      · exact Bool.and_elim_right
          ((List.mem_filter.mp (choice_mem hc)).2)
      · exact beq_iff_eq.mp
          (Bool.and_elim_left ((List.mem_filter.mp (choice_mem hc)).2))
      · rfl
      · exact hp
  next =>
    exact absurd h (by simp)

/-- Every transaction in the loop's output was produced by some accepted
iteration of the loop body. -/
lemma loop_mem_emit {users : List User} {cards : List Card}
    {merchants : List Merchant} {inputs : ℕ → AttemptInput} {n : ℕ} :
    ∀ fuel i attempts last txns,
      generate_transactions_loop users cards merchants inputs n fuel i attempts last
        = some txns →
      ∀ t ∈ txns, ∃ k i2 last2,
        attemptStep users cards merchants (inputs k) i2 last2 = .emit t := by
  intro fuel
  induction fuel with
  | zero =>
    intro i a last txns h t ht
    simp only [generate_transactions_loop, Option.some.injEq] at h
    subst h
    simp at ht
  | succ fuel ih =>
    intro i a last txns h t ht
    rw [generate_transactions_loop] at h
    by_cases hcond : i < n ∧ a < n * 3
    · rw [if_pos hcond] at h
      cases hstep : attemptStep users cards merchants (inputs a) i last with
      | err => rw [hstep] at h; exact absurd h (by simp)
      | skip =>
        rw [hstep] at h
        exact ih _ _ _ _ h t ht
      | emit t2 =>
        rw [hstep] at h
        obtain ⟨rest, hrest, rfl⟩ := Option.map_eq_some'.mp h
        rcases List.mem_cons.mp ht with rfl | htr
        · exact ⟨a, i, last, hstep⟩
        · exact ih _ _ _ _ hrest t htr
    · rw [if_neg hcond] at h
      obtain rfl : ([] : List Txn) = txns := Option.some.injEq _ _ ▸ h
      simp at ht

/-- C1. For every transaction emitted by the synthesizer, the referenced
`card_id` resolves to a card in the card pool that is active and owned by the
transaction's `user_id` (lines 162-166 and 209-214). -/
theorem C1_referential_integrity (users : List User) (cards : List Card)
    (merchants : List Merchant) (inputs : ℕ → AttemptInput) (n : ℕ)
    (txns : List Txn)
    (h : generate_transactions users cards merchants inputs n = some txns) :
    ∀ t ∈ txns, ∃ c ∈ cards,
      c.card_id = t.card_id ∧ c.is_active = true ∧ c.user_id = t.user_id := by
  intro t ht
  obtain ⟨k, i2, last2, hstep⟩ := loop_mem_emit _ _ _ _ _ h t ht
  obtain ⟨user, _, card, hcard, _, _, _, _, hact, hown, hcid, huid, _⟩ :=
    attemptStep_emit hstep
  exact ⟨card, hcard, hcid.symm, hact, hown.trans huid.symm⟩

/-- Concrete one-user, one-card, one-merchant population for instantiating
the theorems. -/
def dUsers : List User := [⟨"u1", true, 1/2⟩]

def dCards : List Card := [⟨"c1", "u1", "****1111", true⟩]

def dMerchants : List Merchant := [⟨"m1", "M Corp", "grocery", "Austin", true⟩]

/-- Two attempts: the second carries an earlier timestamp than the first. -/
def dInputs : ℕ → AttemptInput := fun k =>
  if k = 0 then ⟨0, 0, 0, ⟨1000, 12, 0⟩, 1, 100, 1, 0, 0, 0, 0, 0, 0, 0⟩
  else ⟨0, 0, 0, ⟨900, 12, 0⟩, 1, 100, 1, 0, 0, 0, 0, 0, 0, 0⟩

def dTxns : List Txn :=
  (generate_transactions dUsers dCards dMerchants dInputs 2).getD []


set_option maxRecDepth 100000 in
/-- Witness for C1: a concrete run of the synthesizer on `dUsers`/`dCards`/
`dMerchants` satisfying the hypothesis of `C1_referential_integrity`. -/
theorem C1_referential_integrity_witness :
    generate_transactions dUsers dCards dMerchants dInputs 2 = some dTxns ∧
    ∀ t ∈ dTxns, ∃ c ∈ dCards,
      c.card_id = t.card_id ∧ c.is_active = true ∧ c.user_id = t.user_id :=
  ⟨by with_unfolding_all decide,
   C1_referential_integrity dUsers dCards dMerchants dInputs 2 dTxns
     (by with_unfolding_all decide)⟩

/-- Mathlib `round` is monotone. -/
lemma round_le_round_rat {x y : ℚ} (h : x ≤ y) : round x ≤ round y := by
  rw [round_eq, round_eq]
  exact Int.floor_le_floor (by linarith)

/-- `pyRound · d` is monotone. -/
lemma pyRound_le_pyRound {x y : ℚ} (d : ℕ) (h : x ≤ y) :
    pyRound x d ≤ pyRound y d := by
  unfold pyRound
  have h10 : (0 : ℚ) < 10 ^ d := by positivity
  have hr : round (x * 10 ^ d) ≤ round (y * 10 ^ d) :=
    round_le_round_rat (by nlinarith)
  exact (div_le_div_iff_of_pos_right h10).mpr (by exact_mod_cast hr)

/-- Rounding to 4 decimals preserves membership in `[0,1]`. -/
lemma pyRound4_bounds {p : ℚ} (h0 : 0 ≤ p) (h1 : p ≤ 1) :
    0 ≤ pyRound p 4 ∧ pyRound p 4 ≤ 1 := by
  have e0 : pyRound 0 4 = 0 := by with_unfolding_all decide
  have e1 : pyRound 1 4 = 1 := by with_unfolding_all decide
  exact ⟨e0 ▸ pyRound_le_pyRound 4 h0, e1 ▸ pyRound_le_pyRound 4 h1⟩

/-- Rounding to 4 decimals preserves the `≥ 1/2` floor. -/
lemma pyRound4_half {p : ℚ} (h : 1/2 ≤ p) : 1/2 ≤ pyRound p 4 := by
  have e : pyRound (1/2) 4 = 1/2 := by with_unfolding_all decide
  exact e ▸ pyRound_le_pyRound 4 h

/-- The clamp of line 141 and the floor override of lines 142-143: any value
returned by the scorer is in `[0,1]`, and at least `1/2` on a fraud label. -/
lemma scorer_bounds {amount : ℚ} {hour weekday : ℕ}
    {location merchant_category : String} {risk : ℚ} {fr : Bool} {noise p : ℚ}
    (h : calculate_fraud_probability amount hour weekday location
           merchant_category risk fr noise = some p) :
    0 ≤ p ∧ p ≤ 1 ∧ (fr = true → 1/2 ≤ p) := by
  unfold calculate_fraud_probability at h
  cases hl : merchant_categories.lookup merchant_category with
  | none => rw [hl] at h; exact absurd h (by simp)
  | some category_info =>
    rw [hl] at h
    simp only [Option.some.injEq] at h
    have hclamp : ∀ q : ℚ, 0 ≤ max 0 (min 1 q) ∧ max 0 (min 1 q) ≤ 1 := fun q =>
      ⟨le_max_left _ _, max_le (by norm_num) (min_le_left _ _)⟩
    cases fr with
    | false =>
      rw [if_neg (by simp)] at h
      subst h
      exact ⟨(hclamp _).1, (hclamp _).2, by simp⟩
    | true =>
      rw [if_pos rfl] at h
      subst h
      refine ⟨le_trans (hclamp _).1 (le_max_left _ _), max_le (hclamp _).2 (by norm_num),
        fun _ => le_max_of_le_right (by norm_num)⟩

/-- C2. Every value returned by the fraud-probability scorer lies in `[0,1]`
and is at least `0.5` on a fraud label; the same holds for the value stored
in a generated transaction after rounding to 4 decimal places
(lines 124-144 and 205-207). -/
theorem C2_fraud_probability_range :
    (∀ (amount : ℚ) (hour weekday : ℕ) (location merchant_category : String)
        (risk : ℚ) (fr : Bool) (noise p : ℚ),
      calculate_fraud_probability amount hour weekday location merchant_category
          risk fr noise = some p →
      (0 ≤ p ∧ p ≤ 1 ∧ (fr = true → 1/2 ≤ p)) ∧
      (0 ≤ pyRound p 4 ∧ pyRound p 4 ≤ 1 ∧ (fr = true → 1/2 ≤ pyRound p 4))) ∧
    ∀ (users : List User) (cards : List Card) (merchants : List Merchant)
      (inputs : ℕ → AttemptInput) (n : ℕ) (txns : List Txn),
      generate_transactions users cards merchants inputs n = some txns →
      ∀ t ∈ txns, 0 ≤ t.fraud_probability ∧ t.fraud_probability ≤ 1 ∧
        (t.is_fraud = true → 1/2 ≤ t.fraud_probability) := by
  have main : ∀ (amount : ℚ) (hour weekday : ℕ)
      (location merchant_category : String)
      (risk : ℚ) (fr : Bool) (noise p : ℚ),
      calculate_fraud_probability amount hour weekday location merchant_category
          risk fr noise = some p →
      (0 ≤ p ∧ p ≤ 1 ∧ (fr = true → 1/2 ≤ p)) ∧
      (0 ≤ pyRound p 4 ∧ pyRound p 4 ≤ 1 ∧ (fr = true → 1/2 ≤ pyRound p 4)) := by
    intro amount hour weekday location merchant_category risk fr noise p h
    obtain ⟨h0, h1, hf⟩ := scorer_bounds h
    obtain ⟨r0, r1⟩ := pyRound4_bounds h0 h1
    exact ⟨⟨h0, h1, hf⟩, r0, r1, fun hfr => pyRound4_half (hf hfr)⟩
  refine ⟨main, ?_⟩
  intro users cards merchants inputs n txns h t ht
  obtain ⟨k, i2, last2, hstep⟩ := loop_mem_emit _ _ _ _ _ h t ht
  obtain ⟨user, _, card, _, merchant, _, category_info, _, _, _, _, _, _, _, _, _, _,
    p, hp, hfp⟩ := attemptStep_emit hstep
  obtain ⟨_, ⟨r0, r1, rhalf⟩⟩ := main _ _ _ _ _ _ _ _ _ hp
  exact ⟨hfp ▸ r0, hfp ▸ r1, fun hfr => hfp ▸ rhalf hfr⟩

set_option maxRecDepth 100000 in
/-- Witness for C2: the scorer at a concrete fraud-labelled call returns
exactly `1/2`, and the concrete run `dTxns` satisfies the stored-value
bounds. -/
theorem C2_fraud_probability_range_witness :
    calculate_fraud_probability 0 12 0 "Austin, TX" "grocery" 0 true 0
        = some (1/2) ∧
    ((0 ≤ (1/2 : ℚ) ∧ (1/2 : ℚ) ≤ 1 ∧ (true = true → 1/2 ≤ (1/2 : ℚ))) ∧
      (0 ≤ pyRound (1/2) 4 ∧ pyRound (1/2) 4 ≤ 1 ∧
        (true = true → 1/2 ≤ pyRound (1/2) 4))) ∧
    ∀ t ∈ dTxns, 0 ≤ t.fraud_probability ∧ t.fraud_probability ≤ 1 ∧
      (t.is_fraud = true → 1/2 ≤ t.fraud_probability) :=
  ⟨by with_unfolding_all decide,
   C2_fraud_probability_range.1 0 12 0 "Austin, TX" "grocery" 0 true 0 (1/2)
     (by with_unfolding_all decide),
   C2_fraud_probability_range.2 dUsers dCards dMerchants dInputs 2 dTxns
     (by with_unfolding_all decide)⟩

/-- The loop accepts at most `n - i` further transactions. -/
lemma loop_length_le {users : List User} {cards : List Card}
    {merchants : List Merchant} {inputs : ℕ → AttemptInput} {n : ℕ} :
    ∀ fuel i attempts last txns,
      generate_transactions_loop users cards merchants inputs n fuel i attempts last
        = some txns →
      txns.length ≤ n - i := by
  intro fuel
  induction fuel with
  | zero =>
    intro i a last txns h
    simp only [generate_transactions_loop, Option.some.injEq] at h
    subst h
    simp
  | succ fuel ih =>
    intro i a last txns h
    rw [generate_transactions_loop] at h
    by_cases hcond : i < n ∧ a < n * 3
    · rw [if_pos hcond] at h
      cases hstep : attemptStep users cards merchants (inputs a) i last with
      | err => rw [hstep] at h; exact absurd h (by simp)
      | skip =>
        rw [hstep] at h
        exact ih _ _ _ _ h
      | emit t2 =>
        rw [hstep] at h
        obtain ⟨rest, hrest, rfl⟩ := Option.map_eq_some'.mp h
        have := ih _ _ _ _ hrest
        simp only [List.length_cons]
        omega
    · rw [if_neg hcond] at h
      obtain rfl : ([] : List Txn) = txns := Option.some.injEq _ _ ▸ h
      simp

/-- The loop's value does not depend on the fuel once the fuel covers the
remaining attempt budget: the `while` loop of line 160 terminates within
`n * 3` attempts. -/
lemma loop_fuel_stable {users : List User} {cards : List Card}
    {merchants : List Merchant} {inputs : ℕ → AttemptInput} {n : ℕ} :
    ∀ f1 f2 i attempts last, n * 3 ≤ attempts + f1 → n * 3 ≤ attempts + f2 →
      generate_transactions_loop users cards merchants inputs n f1 i attempts last
        = generate_transactions_loop users cards merchants inputs n f2 i attempts last := by
  intro f1
  induction f1 with
  | zero =>
    intro f2 i a last h1 h2
    cases f2 with
    | zero => rfl
    | succ g2 =>
      rw [generate_transactions_loop, generate_transactions_loop,
        if_neg (by omega)]
  | succ g1 ih =>
    intro f2 i a last h1 h2
    cases f2 with
    | zero =>
      rw [generate_transactions_loop, generate_transactions_loop,
        if_neg (by omega)]
    | succ g2 =>
      rw [generate_transactions_loop]
      conv_rhs => rw [generate_transactions_loop]
      by_cases hcond : i < n ∧ a < n * 3
      · rw [if_pos hcond, if_pos hcond]
        cases hstep : attemptStep users cards merchants (inputs a) i last with
        | err => rfl
        | skip => exact ih g2 i (a + 1) last (by omega) (by omega)
        | emit t =>
          exact congrArg (Option.map (t :: ·))
            (ih g2 (i + 1) (a + 1) ((t.card_id, t.transaction_time) :: last)
              (by omega) (by omega))
      · rw [if_neg hcond, if_neg hcond]

/-- With a nonempty user pool, a nonempty merchant pool and every merchant
category present in the risk table, no iteration raises an exception:
the only discard path is the empty-active-card `continue` of line 165. -/
lemma attemptStep_ne_err {users : List User} {cards : List Card}
    {merchants : List Merchant} {inp : AttemptInput} {i : ℕ}
    {last : List (String × Time)}
    (hu : users ≠ []) (hm : merchants ≠ [])
    (hcat : ∀ m ∈ merchants, (merchant_categories.lookup m.merchant_category).isSome) :
    attemptStep users cards merchants inp i last ≠ .err := by
  intro h
  unfold attemptStep at h
  obtain ⟨user, hu2⟩ := Option.isSome_iff_exists.mp (choice_isSome hu inp.userIdx)
  rw [hu2] at h
  simp only at h
  cases hc : choice (cards.filter fun c => c.user_id == user.user_id && c.is_active)
      inp.cardIdx with
  | none => rw [hc] at h; exact absurd h (by simp)
  | some card =>
  rw [hc] at h
  simp only at h
  obtain ⟨merchant, hm2⟩ := Option.isSome_iff_exists.mp (choice_isSome hm inp.merchantIdx)
  rw [hm2] at h
  simp only at h
  obtain ⟨category_info, hl⟩ :=
    Option.isSome_iff_exists.mp (hcat merchant (choice_mem hm2))
  rw [hl] at h
  simp only at h
  split at h
  next location device_type source_system hloc hdev hsrc =>
    split at h
    next heq =>
      rw [calculate_fraud_probability, hl] at heq
      exact absurd heq (by simp)
    next p hp => exact absurd h (by simp)
  next hbad =>
    have hpool : (if decide (inp.fraudDraw <
          effective_fraud_rate category_info user.risk_score inp.time.hour
            inp.time.weekday merchant.city) = true ∧ inp.locCoin < 0.3 then
        high_risk_locations else normal_locations) ≠ [] := by
      split <;> simp [high_risk_locations, normal_locations]
    obtain ⟨location, hloc⟩ :=
      Option.isSome_iff_exists.mp (choice_isSome hpool inp.locIdx)
    obtain ⟨device_type, hdev⟩ := Option.isSome_iff_exists.mp
      (choice_isSome (show device_types ≠ [] by simp [device_types]) inp.devTypeIdx)
    obtain ⟨source_system, hsrc⟩ := Option.isSome_iff_exists.mp
      (choice_isSome (show source_systems ≠ [] by simp [source_systems]) inp.srcIdx)
    exact hbad location device_type source_system hloc hdev hsrc

/-- Under the same preconditions the loop never dies: it returns a list. -/
lemma loop_isSome {users : List User} {cards : List Card}
    {merchants : List Merchant} {inputs : ℕ → AttemptInput} {n : ℕ}
    (hu : users ≠ []) (hm : merchants ≠ [])
    (hcat : ∀ m ∈ merchants, (merchant_categories.lookup m.merchant_category).isSome) :
    ∀ fuel i attempts last,
      (generate_transactions_loop users cards merchants inputs n fuel i attempts
        last).isSome := by
  intro fuel
  induction fuel with
  | zero => intro i a last; simp [generate_transactions_loop]
  | succ fuel ih =>
    intro i a last
    rw [generate_transactions_loop]
    by_cases hcond : i < n ∧ a < n * 3
    · rw [if_pos hcond]
      cases hstep : attemptStep users cards merchants (inputs a) i last with
      | err => exact absurd hstep (attemptStep_ne_err hu hm hcat)
      | skip => exact ih i (a + 1) last
      | emit t => simpa using ih (i + 1) (a + 1) ((t.card_id, t.transaction_time) :: last)
    · rw [if_neg hcond]; simp

/-- C3. The generation loop terminates within the `3 × n` attempt budget
(its result is already determined by `3 × n` fuel), emits at most `n`
transactions, and exhausting the budget returns the short list normally —
under the no-exception preconditions the result is always a list
(lines 158-161 and 232-235). -/
theorem C3_termination_and_bounds (users : List User) (cards : List Card)
    (merchants : List Merchant) (inputs : ℕ → AttemptInput) (n : ℕ) :
    (∀ txns, generate_transactions users cards merchants inputs n = some txns →
      txns.length ≤ n) ∧
    (∀ fuel, n * 3 ≤ fuel →
      generate_transactions_loop users cards merchants inputs n fuel 0 0 []
        = generate_transactions users cards merchants inputs n) ∧
    (users ≠ [] → merchants ≠ [] →
      (∀ m ∈ merchants, (merchant_categories.lookup m.merchant_category).isSome) →
      (generate_transactions users cards merchants inputs n).isSome) := by
  refine ⟨?_, ?_, ?_⟩
  · intro txns h
    simpa using loop_length_le _ _ _ _ _ h
  · intro fuel hf
    exact loop_fuel_stable fuel (n * 3) 0 0 [] (by omega) (by omega)
  · intro hu hm hcat
    exact loop_isSome hu hm hcat _ _ _ _

set_option maxRecDepth 100000 in
/-- Witness for C3 at the concrete population: the run emits at most 2
transactions, extra fuel does not change the result, and the result is a
list. -/
theorem C3_termination_and_bounds_witness :
    dTxns.length ≤ 2 ∧
    generate_transactions_loop dUsers dCards dMerchants dInputs 2 10 0 0 []
      = generate_transactions dUsers dCards dMerchants dInputs 2 ∧
    (generate_transactions dUsers dCards dMerchants dInputs 2).isSome :=
  ⟨(C3_termination_and_bounds dUsers dCards dMerchants dInputs 2).1 dTxns
      (by with_unfolding_all decide),
   (C3_termination_and_bounds dUsers dCards dMerchants dInputs 2).2.1 10 (by omega),
   (C3_termination_and_bounds dUsers dCards dMerchants dInputs 2).2.2
      (by decide) (by decide) (by with_unfolding_all decide)⟩

/-- Loop invariant for the per-card gap discipline: relative to the current
`last_tx_time_by_card` map, the output stream filtered to any card id
satisfies `gapsOk`. -/
lemma loop_gaps {users : List User} {cards : List Card} {merchants : List Merchant}
    {inputs : ℕ → AttemptInput} {n : ℕ} :
    ∀ fuel i attempts last txns,
      generate_transactions_loop users cards merchants inputs n fuel i attempts last
        = some txns →
      ∀ cid, gapsOk ((last.lookup cid).map (·.secs))
        (txns.filter fun t => t.card_id == cid) := by
  intro fuel
  induction fuel with
  | zero =>
    intro i a last txns h cid
    simp only [generate_transactions_loop, Option.some.injEq] at h
    subst h
    simp [gapsOk]
  | succ fuel ih =>
    intro i a last txns h cid
    rw [generate_transactions_loop] at h
    by_cases hcond : i < n ∧ a < n * 3
    · rw [if_pos hcond] at h
      cases hstep : attemptStep users cards merchants (inputs a) i last with
      | err => rw [hstep] at h; exact absurd h (by simp)
      | skip => rw [hstep] at h; exact ih _ _ _ _ h cid
      | emit t =>
        rw [hstep] at h
        obtain ⟨rest, hrest, rfl⟩ := Option.map_eq_some'.mp h
        obtain ⟨user, _, card, _, merchant, _, category_info, _, _, _, hcid, _, _, _, _,
          htime, hsec, _⟩ := attemptStep_emit hstep
        rw [List.filter_cons]
        by_cases hbeq : (t.card_id == cid) = true
        · obtain rfl : t.card_id = cid := beq_iff_eq.mp hbeq
          rw [if_pos (by simp)]
          refine ⟨?_, ?_⟩
          · rw [hsec, hcid, htime, Option.map_map]
            rfl
          · have := ih _ _ _ _ hrest t.card_id
            simpa [List.lookup] using this
        · rw [if_neg (by simpa using hbeq)]
          have hne : (cid == t.card_id) = false :=
            beq_eq_false_iff_ne.mpr fun hh => hbeq (beq_iff_eq.mpr hh.symm)
          have := ih _ _ _ _ hrest cid
          simpa [List.lookup, hne] using this
    · rw [if_neg hcond] at h
      obtain rfl : ([] : List Txn) = txns := Option.some.injEq _ _ ▸ h
      simp [gapsOk]

/-- C4 (amended: gaps may be negative). For every card, the first generated
transaction carries a null `seconds_since_prev_tx` and every later one for
the same card carries exactly the (possibly negative) difference between its
timestamp and the card's previous transaction's timestamp in generation
order (lines 198-203). -/
theorem C4_seconds_since_prev (users : List User) (cards : List Card)
    (merchants : List Merchant) (inputs : ℕ → AttemptInput) (n : ℕ)
    (txns : List Txn)
    (h : generate_transactions users cards merchants inputs n = some txns) :
    ∀ cid, gapsOk none (txns.filter fun t => t.card_id == cid) := by
  intro cid
  simpa [List.lookup] using loop_gaps _ _ _ _ _ h cid

set_option maxRecDepth 100000 in
/-- Witness for C4: the concrete run `dTxns` filtered to card `c1` satisfies
the gap discipline. -/
theorem C4_seconds_since_prev_witness :
    generate_transactions dUsers dCards dMerchants dInputs 2 = some dTxns ∧
    gapsOk none (dTxns.filter fun t => t.card_id == "c1") :=
  ⟨by with_unfolding_all decide,
   C4_seconds_since_prev dUsers dCards dMerchants dInputs 2 dTxns
     (by with_unfolding_all decide) "c1"⟩

set_option maxRecDepth 100000 in
/-- Counterexample to C4 as stated: `seconds_since_prev_tx` is NOT always
non-negative. In the concrete run `dTxns` the second transaction of card
`c1` has `seconds_since_prev_tx = -100 < 0` (its timestamp was drawn 100
seconds earlier than the first one, line 169 draws timestamps independently
of per-card history). -/
theorem C4_seconds_since_prev_counterexample :
    dTxns.map (·.seconds_since_prev_tx) = [none, some (-100)] ∧
    (-100 : ℚ) < 0 := by
  constructor
  · with_unfolding_all decide
  · norm_num

/-- C5. The alert deriver emits an alert for a transaction iff its
`fraud_probability` exceeds `0.5`, and an alert's `risk_level` is `"high"`
iff the probability exceeds `0.8`, else `"medium"` (lines 237-252). -/
theorem C5_alert_threshold (statusIdx : ℕ → ℕ) (k : ℕ) (txns : List Txn) :
    (∀ a ∈ generate_fraud_alerts statusIdx k txns, ∃ t ∈ txns,
      a.transaction_id = t.transaction_id ∧
      a.fraud_probability = t.fraud_probability ∧
      t.fraud_probability > 0.5 ∧
      (a.risk_level = "high" ↔ t.fraud_probability > 0.8) ∧
      (a.risk_level = "medium" ↔ ¬t.fraud_probability > 0.8)) ∧
    (∀ t ∈ txns, t.fraud_probability > 0.5 →
      ∃ a ∈ generate_fraud_alerts statusIdx k txns,
        a.transaction_id = t.transaction_id ∧
        a.fraud_probability = t.fraud_probability) := by
  induction txns generalizing k with
  | nil => simp [generate_fraud_alerts]
  | cons tx rest ih =>
    rw [generate_fraud_alerts]
    by_cases hp : tx.fraud_probability > 0.5
    · rw [if_pos hp]
      constructor
      · intro a ha
        rcases List.mem_cons.mp ha with rfl | ha2
        · refine ⟨tx, List.mem_cons_self _ _, rfl, rfl, hp, ?_, ?_⟩
          · by_cases h8 : tx.fraud_probability > 0.8 <;> simp [h8]
          · by_cases h8 : tx.fraud_probability > 0.8 <;> simp [h8]
        · obtain ⟨t, htr, hrest⟩ := (ih (k + 1)).1 a ha2
          exact ⟨t, List.mem_cons_of_mem _ htr, hrest⟩
      · intro t ht hpt
        rcases List.mem_cons.mp ht with rfl | ht2
        · exact ⟨_, List.mem_cons_self _ _, rfl, rfl⟩
        · obtain ⟨a, haa, h1, h2⟩ := (ih (k + 1)).2 t ht2 hpt
          exact ⟨a, List.mem_cons_of_mem _ haa, h1, h2⟩
    · rw [if_neg hp]
      constructor
      · intro a ha
        obtain ⟨t, htr, hrest⟩ := (ih k).1 a ha
        exact ⟨t, List.mem_cons_of_mem _ htr, hrest⟩
      · intro t ht hpt
        rcases List.mem_cons.mp ht with rfl | ht2
        · exact absurd hpt hp
        · exact (ih k).2 t ht2 hpt

/-- A concrete transaction scoring above both alert thresholds. -/
def dTxHigh : Txn :=
  { transaction_id := "txn_0000001", card_id := "c1", card_number := "****1111",
    user_id := "u1", merchant_id := "m1", merchant_name := "M Corp",
    merchant_category := "grocery", amount := 100, currency := "USD",
    transaction_time := ⟨1000, 12, 0⟩, location := "Austin, TX",
    latitude := 0, longitude := 0, device_id := "device_1000",
    device_type := "mobile", source_system := "mobile_app",
    seconds_since_prev_tx := none, is_fraud := true,
    fraud_probability := 0.9, created_at := ⟨1000, 12, 0⟩ }

/-- A concrete transaction scoring below the alert threshold. -/
def dTxLow : Txn :=
  { dTxHigh with
    transaction_id := "txn_0000002"
    is_fraud := false
    fraud_probability := 0.3 }

/-- Witness for C5: the transaction with probability `0.9 > 0.5` receives an
alert. -/
theorem C5_alert_threshold_witness :
    dTxHigh.fraud_probability > 0.5 ∧
    ∃ a ∈ generate_fraud_alerts (fun _ => 0) 0 [dTxHigh, dTxLow],
      a.transaction_id = dTxHigh.transaction_id ∧
      a.fraud_probability = dTxHigh.fraud_probability :=
  ⟨by norm_num [dTxHigh],
   (C5_alert_threshold (fun _ => 0) 0 [dTxHigh, dTxLow]).2 dTxHigh
     (List.mem_cons_self _ _) (by norm_num [dTxHigh])⟩

/-- C6 (amended: only existence in the pools is guaranteed, plus the card's
activity — the merchant's and user's `is_active` flags are never checked).
Every emitted transaction's `merchant_id`/`merchant_name`/
`merchant_category` come from a merchant of the pool, its `user_id` from a
user of the pool, and its `card_id` from an active card of the pool
(lines 162-167). -/
theorem C6_back_references (users : List User) (cards : List Card)
    (merchants : List Merchant) (inputs : ℕ → AttemptInput) (n : ℕ)
    (txns : List Txn)
    (h : generate_transactions users cards merchants inputs n = some txns) :
    ∀ t ∈ txns,
      (∃ m ∈ merchants, m.merchant_id = t.merchant_id ∧
        m.merchant_name = t.merchant_name ∧
        m.merchant_category = t.merchant_category) ∧
      (∃ u ∈ users, u.user_id = t.user_id) ∧
      (∃ c ∈ cards, c.card_id = t.card_id ∧ c.is_active = true) := by
  intro t ht
  obtain ⟨k, i2, last2, hstep⟩ := loop_mem_emit _ _ _ _ _ h t ht
  obtain ⟨user, huser, card, hcard, merchant, hmerchant, category_info, _, hact, _,
    hcid, huid, hmid, hmname, hmcat, _⟩ := attemptStep_emit hstep
  exact ⟨⟨merchant, hmerchant, hmid.symm, hmname.symm, hmcat.symm⟩,
    ⟨user, huser, huid.symm⟩, ⟨card, hcard, hcid.symm, hact⟩⟩

set_option maxRecDepth 100000 in
/-- Witness for C6 at the concrete run `dTxns`. -/
theorem C6_back_references_witness :
    generate_transactions dUsers dCards dMerchants dInputs 2 = some dTxns ∧
    ∀ t ∈ dTxns,
      (∃ m ∈ dMerchants, m.merchant_id = t.merchant_id ∧
        m.merchant_name = t.merchant_name ∧
        m.merchant_category = t.merchant_category) ∧
      (∃ u ∈ dUsers, u.user_id = t.user_id) ∧
      (∃ c ∈ dCards, c.card_id = t.card_id ∧ c.is_active = true) :=
  ⟨by with_unfolding_all decide,
   C6_back_references dUsers dCards dMerchants dInputs 2 dTxns
     (by with_unfolding_all decide)⟩

/-- An inactive user who still owns an active card. -/
def c6Users : List User := [⟨"u1", false, 1/2⟩]

/-- An inactive merchant. -/
def c6Merchants : List Merchant := [⟨"m1", "M Corp", "grocery", "Austin", false⟩]

set_option maxRecDepth 100000 in
/-- Counterexample to C6 as stated: a transaction is emitted whose referenced
user and merchant both have `is_active = false` — lines 162 and 167 never
check those flags (only the card's, line 163). -/
theorem C6_back_references_counterexample :
    (generate_transactions c6Users dCards c6Merchants dInputs 1).map
        (List.map fun t => (t.user_id, t.merchant_id))
      = some [("u1", "m1")] ∧
    c6Users.map (·.is_active) = [false] ∧
    c6Merchants.map (·.is_active) = [false] := by
  refine ⟨?_, ?_, ?_⟩ <;> with_unfolding_all decide

/-- When no user owns an active card, every iteration takes the `continue`
of line 165. -/
lemma attemptStep_skip_of_no_active {users : List User} {cards : List Card}
    {merchants : List Merchant} {inp : AttemptInput} {i : ℕ}
    {last : List (String × Time)}
    (hu : users ≠ [])
    (hno : ∀ u ∈ users,
      cards.filter (fun c => c.user_id == u.user_id && c.is_active) = []) :
    attemptStep users cards merchants inp i last = .skip := by
  unfold attemptStep
  obtain ⟨user, hu2⟩ := Option.isSome_iff_exists.mp (choice_isSome hu inp.userIdx)
  rw [hu2]
  simp only
  rw [hno user (choice_mem hu2)]
  rfl

/-- With every attempt skipped the loop runs to its cap and returns `[]`. -/
lemma loop_all_skip {users : List User} {cards : List Card}
    {merchants : List Merchant} {inputs : ℕ → AttemptInput} {n : ℕ}
    (hu : users ≠ [])
    (hno : ∀ u ∈ users,
      cards.filter (fun c => c.user_id == u.user_id && c.is_active) = []) :
    ∀ fuel i attempts last,
      generate_transactions_loop users cards merchants inputs n fuel i attempts last
        = some [] := by
  intro fuel
  induction fuel with
  | zero => intro i a last; rfl
  | succ fuel ih =>
    intro i a last
    rw [generate_transactions_loop]
    by_cases hcond : i < n ∧ a < n * 3
    · rw [if_pos hcond, attemptStep_skip_of_no_active hu hno]
      exact ih i (a + 1) last
    · rw [if_neg hcond]

/-- With an empty merchant pool no iteration can emit (line 167 would raise
`IndexError` on the first attempt that finds an active card), so the loop
returns either an exception or the empty list. -/
lemma loop_no_merchants {users : List User} {cards : List Card}
    {inputs : ℕ → AttemptInput} {n : ℕ} :
    ∀ fuel i attempts last,
      generate_transactions_loop users cards [] inputs n fuel i attempts last = none ∨
      generate_transactions_loop users cards [] inputs n fuel i attempts last
        = some [] := by
  intro fuel
  induction fuel with
  | zero => intro i a last; right; rfl
  | succ fuel ih =>
    intro i a last
    rw [generate_transactions_loop]
    by_cases hcond : i < n ∧ a < n * 3
    · rw [if_pos hcond]
      cases hstep : attemptStep users cards [] (inputs a) i last with
      | err => left; rfl
      | skip => exact ih i (a + 1) last
      | emit t =>
        obtain ⟨_, _, _, _, merchant, hmerchant, _⟩ := attemptStep_emit hstep
        exact absurd hmerchant (List.not_mem_nil _)
    · rw [if_neg hcond]; right; rfl

/-- C7 (amended: there is no fail-fast precondition check). When no user has
an active card (and the user pool is nonempty) the generator silently
iterates to the attempt cap and returns the empty list — no error; when the
merchant pool is empty it emits nothing: the run either dies with the
mid-loop `IndexError` of line 167 or returns the empty list
(lines 158-167). -/
theorem C7_no_fail_fast (users : List User) (cards : List Card)
    (merchants : List Merchant) (inputs : ℕ → AttemptInput) (n : ℕ) :
    (users ≠ [] →
      (∀ u ∈ users,
        cards.filter (fun c => c.user_id == u.user_id && c.is_active) = []) →
      generate_transactions users cards merchants inputs n = some []) ∧
    (generate_transactions users cards [] inputs n = none ∨
      generate_transactions users cards [] inputs n = some []) :=
  ⟨fun hu hno => loop_all_skip hu hno _ _ _ _, loop_no_merchants _ _ _ _⟩

/-- The card pool for the C7 counterexample: the only card is inactive. -/
def c7Cards : List Card := [⟨"c1", "u1", "****1111", false⟩]

set_option maxRecDepth 100000 in
/-- Counterexample to C7 as stated: with a nonempty merchant pool and no
active card anywhere, generation does NOT fail with a precondition error —
it returns the empty list normally (after looping to the attempt cap). -/
theorem C7_no_fail_fast_counterexample :
    generate_transactions dUsers c7Cards dMerchants dInputs 1 = some [] ∧
    generate_transactions dUsers c7Cards dMerchants dInputs 1 ≠ none := by
  have h : generate_transactions dUsers c7Cards dMerchants dInputs 1 = some [] := by
    with_unfolding_all decide
  exact ⟨h, by rw [h]; simp⟩

set_option maxRecDepth 100000 in
/-- Witness for C7: both amended branches at concrete pools. -/
theorem C7_no_fail_fast_witness :
    generate_transactions dUsers c7Cards dMerchants dInputs 1 = some [] ∧
    (generate_transactions dUsers dCards [] dInputs 1 = none ∨
      generate_transactions dUsers dCards [] dInputs 1 = some []) :=
  ⟨(C7_no_fail_fast dUsers c7Cards dMerchants dInputs 1).1 (by decide)
      (by with_unfolding_all decide),
   (C7_no_fail_fast dUsers dCards [] dInputs 1).2⟩

/-- A hidden-RNG stream whose first two `random.random()` outputs differ. -/
def c8State : RandState := ⟨fun k => if k = 0 then 0 else 1/2, 0⟩

/-- C8 evidence (code bug): the scorer is NOT pure. The
`random.uniform(-0.1, 0.1)` call of line 140 reads and advances the hidden
module-global RNG state, so two calls with byte-identical arguments
(`amount=2000, hour=12, weekday=0, location="Austin, TX",
category="grocery", risk=0, label=false`) return different values
(`0.02` then `0.12`) and leave the global state changed. -/
theorem C8_scorer_hidden_state :
    ((calculate_fraud_probability_rng c8State 2000 12 0 "Austin, TX" "grocery"
        0 false).1 ≠
      (calculate_fraud_probability_rng
        (calculate_fraud_probability_rng c8State 2000 12 0 "Austin, TX" "grocery"
          0 false).2 2000 12 0 "Austin, TX" "grocery" 0 false).1) ∧
    (calculate_fraud_probability_rng c8State 2000 12 0 "Austin, TX" "grocery"
        0 false).2.pos ≠ c8State.pos := by
  constructor
  · with_unfolding_all decide
  · with_unfolding_all decide

/-- C9. The rewards aggregator (lines 272-278): exactly the users with at
least one transaction appear in the output; for each, `total_spent` is the
sum of their transaction amounts and
`points = floor(floor(total_spent / 10) + risk_score * 10)` (the two
`astype(int)` truncations coincide with floors on the non-negative inputs
produced by the generators). -/
theorem C9_rewards_points (txns : List Txn) (users : List User)
    (hamt : ∀ t ∈ txns, 0 ≤ t.amount)
    (hrisk : ∀ u ∈ users, 0 ≤ u.risk_score) :
    (∀ uid, (∃ t ∈ txns, t.user_id = uid) ↔
      ∃ r ∈ points_records txns users, r.user_id = uid) ∧
    (∀ r ∈ points_records txns users,
      r.total_spent = total_spent_of txns r.user_id ∧
      r.points = ⌊(⌊r.total_spent / 10⌋ : ℚ) + risk_of users r.user_id * 10⌋) := by
  have htotal : ∀ uid, 0 ≤ total_spent_of txns uid := by
    intro uid
    refine List.sum_nonneg ?_
    intro q hq
    obtain ⟨t, ht, rfl⟩ := List.mem_map.mp hq
    exact hamt t (List.mem_filter.mp ht).1
  have hriskof : ∀ uid, 0 ≤ risk_of users uid := by
    intro uid
    unfold risk_of
    cases hf : users.find? fun u => u.user_id == uid with
    | none => simp
    | some u => simpa using hrisk u (List.mem_of_find?_eq_some hf)
  constructor
  · intro uid
    constructor
    · rintro ⟨t, ht, rfl⟩
      refine ⟨_, List.mem_map.mpr ⟨t.user_id, ?_, rfl⟩, rfl⟩
      exact List.mem_dedup.mpr (List.mem_map.mpr ⟨t, ht, rfl⟩)
    · rintro ⟨r, hr, rfl⟩
      obtain ⟨uid2, huid2, rfl⟩ := List.mem_map.mp hr
      obtain ⟨t, ht, rfl⟩ := List.mem_map.mp (List.mem_dedup.mp huid2)
      exact ⟨t, ht, rfl⟩
  · intro r hr
    obtain ⟨uid, _, rfl⟩ := List.mem_map.mp hr
    refine ⟨rfl, ?_⟩
    have h10 : (0 : ℚ) ≤ total_spent_of txns uid / 10 :=
      div_nonneg (htotal uid) (by norm_num)
    have hbase : astypeInt (total_spent_of txns uid / 10)
        = ⌊total_spent_of txns uid / 10⌋ := if_pos h10
    have hinner : (0 : ℚ) ≤ (⌊total_spent_of txns uid / 10⌋ : ℚ)
        + risk_of users uid * 10 := by
      have : (0 : ℚ) ≤ (⌊total_spent_of txns uid / 10⌋ : ℚ) := by
        exact_mod_cast Int.floor_nonneg.mpr h10
      nlinarith [hriskof uid]
    show astypeInt ((astypeInt (total_spent_of txns uid / 10) : ℚ)
        + risk_of users uid * 10) = _
    rw [hbase, astypeInt, if_pos hinner]

/-- A user whose spend and risk score realise the worked example of the
spec: `total_spent = 237`, `risk_score = 0.4`. -/
def d9Users : List User := [⟨"u1", true, 0.4⟩]

/-- A single transaction of amount `237` for user `u1`. -/
def d9Tx : Txn := { dTxHigh with amount := 237 }

set_option maxRecDepth 100000 in
/-- Witness for C9: the concrete aggregate gives
`total_spent = 237, points = 27`. -/
theorem C9_rewards_points_witness :
    (∀ t ∈ [d9Tx], 0 ≤ t.amount) ∧ (∀ u ∈ d9Users, 0 ≤ u.risk_score) ∧
    (∀ r ∈ points_records [d9Tx] d9Users,
      r.total_spent = total_spent_of [d9Tx] r.user_id ∧
      r.points = ⌊(⌊r.total_spent / 10⌋ : ℚ) + risk_of d9Users r.user_id * 10⌋) ∧
    points_records [d9Tx] d9Users = [⟨"u1", 237, 27⟩] :=
  ⟨by with_unfolding_all decide, by with_unfolding_all decide,
   (C9_rewards_points [d9Tx] d9Users (by with_unfolding_all decide)
     (by with_unfolding_all decide)).2,
   by with_unfolding_all decide⟩

set_option maxRecDepth 10000 in
/-- Every base fraud rate of the risk table lies in `[0, 0.15]`. -/
lemma base_rate_bounds :
    ∀ p ∈ merchant_categories, 0 ≤ p.2.fraud_rate ∧ p.2.fraud_rate ≤ 3/20 := by
  with_unfolding_all decide

/-- C10. For every category of the risk table and every
`0 ≤ user_risk_score < 1`, the effective per-transaction fraud rate of
lines 171-181 is at most `0.15 × 2 × 1.5 × 1.2 × 1.3 = 0.702` and in
particular strictly less than `1`, so the Bernoulli fraud draw of line 181
is a proper probability with a non-fraud outcome always possible. -/
theorem C10_fraud_rate_bounded (cat : String) (category_info : CategoryInfo)
    (hmem : (cat, category_info) ∈ merchant_categories)
    (risk : ℚ) (h0 : 0 ≤ risk) (h1 : risk < 1) (hour weekday : ℕ) (city : String) :
    effective_fraud_rate category_info risk hour weekday city ≤ 351/500 ∧
    effective_fraud_rate category_info risk hour weekday city < 1 := by
  obtain ⟨hb0, hb1⟩ := base_rate_bounds _ hmem
  have key : effective_fraud_rate category_info risk hour weekday city ≤ 351/500 := by
    unfold effective_fraud_rate
    have hr0 : 0 ≤ category_info.fraud_rate * (1 + risk) := by nlinarith
    have hr1 : category_info.fraud_rate * (1 + risk) ≤ 3/10 := by nlinarith
    split_ifs <;> nlinarith
  exact ⟨key, lt_of_le_of_lt key (by norm_num)⟩

/-- Witness for C10: the `grocery` row at `risk = 1/2`, odd hour, weekend
and a high-risk merchant city. -/
theorem C10_fraud_rate_bounded_witness :
    ("grocery", (⟨0.01, 85.50⟩ : CategoryInfo)) ∈ merchant_categories ∧
    (0 ≤ (1/2 : ℚ) ∧ (1/2 : ℚ) < 1) ∧
    effective_fraud_rate ⟨0.01, 85.50⟩ (1/2) 23 6 "Miami" ≤ 351/500 ∧
    effective_fraud_rate ⟨0.01, 85.50⟩ (1/2) 23 6 "Miami" < 1 :=
  ⟨by with_unfolding_all decide, ⟨by norm_num, by norm_num⟩,
   C10_fraud_rate_bounded "grocery" ⟨0.01, 85.50⟩ (by with_unfolding_all decide)
     (1/2) (by norm_num) (by norm_num) 23 6 "Miami"⟩
